import Mathlib

/-!
Shallow embedding of the dxlibv3 lifecycle orchestrator (`app/app.go`) and
the SQL utility helpers (`utils` package), together with theorems settling
the frozen claims about them.

Modelling conventions:
* Go strings handled character-wise are modelled as `List Nat` of rune code
  points; `strings.ToLower` / `strings.ToUpper` are modelled on the runes
  the development evaluates them on: the ASCII simple case mapping plus
  Go's Unicode simple mapping of U+0131 (dotless i) to I, which exhibits
  the failure of the unrestricted identifier roundtrip.
* Go `error` values are modelled as `Option Err` (`none` = nil).
* Optional hook fields (`OnDefine`, ...) are `Option (Option Err)`:
  `none` means the hook is unset; `some r` means the hook is set and
  returns `r` when invoked.
* The behaviour of the external subsystem managers (configuration, redis,
  databases, tables, api, tasks) is summarised by an `Env` record giving,
  for each manager entry point, the error it would return, plus the
  presence of each configuration section.
* Every manager entry-point call and hook invocation is recorded in a
  trace (`List Ev`), so ordering claims become claims about traces.
-/

namespace Utils

/-- Go `unicode.ToLower` (as used by `strings.ToLower`) on one rune; a
Go rune is modelled as its natural-number code point. Modelled on the
runes this development evaluates it on: the ASCII simple case mapping
(A-Z to a-z) and identity elsewhere — in particular identity on
U+0131 (dotless i, 305), matching Go. Go's full Unicode table extends
this, which is why the roundtrip theorem quantifies only over ASCII
identifiers. -/
def runeToLower (c : Nat) : Nat := if 65 ≤ c ∧ c ≤ 90 then c + 32 else c

/-- Go `unicode.ToUpper` (as used by `strings.ToUpper`) on one rune.
Modelled on the runes this development evaluates it on: the ASCII
mapping (a-z to A-Z) together with Go's Unicode simple mapping of
U+0131 (dotless i, 305) to I (73) — the mapping that falsifies the
unrestricted roundtrip claim — and identity elsewhere. -/
def runeToUpper (c : Nat) : Nat :=
  if 97 ≤ c ∧ c ≤ 122 then c - 32
  else if c = 305 then 73
  else c

/-- The code point of the double-quote character. -/
def quoteRune : Nat := 34

/-- `strings.ToLower` on a whole string. -/
def goToLower (s : List Nat) : List Nat := s.map runeToLower

/-- `strings.ToUpper` on a whole string. -/
def goToUpper (s : List Nat) : List Nat := s.map runeToUpper

/-- `strings.Trim(s, quote)`: strip leading and trailing double quotes. -/
def goTrimQuotes (s : List Nat) : List Nat :=
  ((s.dropWhile (· == quoteRune)).reverse.dropWhile (· == quoteRune)).reverse

/-- `utils.FormatIdentifier`: lowercase the identifier; for the
`oracle`/`db2` drivers return it uppercased, otherwise wrap the lowercase
form in double quotes. -/
def FormatIdentifier (identifier : List Nat) (driverName : String) : List Nat :=
  let formattedIdentifier := goToLower identifier
  if driverName = "oracle" ∨ driverName = "db2" then
    goToUpper formattedIdentifier
  else
    quoteRune :: formattedIdentifier ++ [quoteRune]

/-- `utils.DeformatIdentifier`: strip surrounding quotes, then lowercase.
The `driverName` argument is accepted but never used by the source. -/
def DeformatIdentifier (identifier : List Nat) (driverName : String) : List Nat :=
  let deformattedIdentifier := goTrimQuotes identifier
  goToLower deformattedIdentifier

/-- A Go `any` value as it can appear in the key/value maps handled by
`PrepareArrayArgs`: booleans, integers, strings, or nil. -/
inductive GoValue where
  | vBool : Bool → GoValue
  | vInt : Int → GoValue
  | vString : List Nat → GoValue
  | vNull : GoValue
deriving DecidableEq, Repr

/-- A `sql.NamedArg`: the formatted name together with the value. -/
abbrev NamedArg := List Nat × GoValue

/-- The loop body of `utils.PrepareArrayArgs`, iterating over the
key/value entries while accumulating `fieldNames`, `fieldValues` and
`fieldArgs`; the fourth component of the result is the key/value map
after the in-place bool-to-int mutation performed for the
`oracle`/`sqlserver` drivers. -/
def prepareArrayArgsGo (driverName : String) :
    List (List Nat × GoValue) → List Nat → List Nat → List NamedArg →
      List Nat × List Nat × List NamedArg × List (List Nat × GoValue)
  | [], fieldNames, fieldValues, fieldArgs => (fieldNames, fieldValues, fieldArgs, [])
  | (k, v) :: rest, fieldNames, fieldValues, fieldArgs =>
    let fieldNames' := if fieldNames = [] then fieldNames else fieldNames ++ [44, 32]
    let fieldValues' := if fieldNames = [] then fieldValues else fieldValues ++ [44, 32]
    let fieldName := FormatIdentifier k driverName
    let fieldNames'' := fieldNames' ++ fieldName
    let fieldValues'' := fieldValues' ++ (58 :: fieldName)
    let newValue : GoValue :=
      match v with
      | GoValue.vBool b =>
        if driverName = "oracle" ∨ driverName = "sqlserver" then
          GoValue.vInt (if b then 1 else 0)
        else
          GoValue.vBool b
      | _ => v
    let s : NamedArg := (fieldName, newValue)
    let r := prepareArrayArgsGo driverName rest fieldNames'' fieldValues'' (fieldArgs ++ [s])
    (r.1, r.2.1, r.2.2.1, (k, newValue) :: r.2.2.2)

/-- `utils.PrepareArrayArgs`. The map argument is modelled as an
association list (Go map iteration order fixed to list order); the fourth
component of the result is the caller's map after mutation. -/
def PrepareArrayArgs (keyValues : List (List Nat × GoValue)) (driverName : String) :
    List Nat × List Nat × List NamedArg × List (List Nat × GoValue) :=
  prepareArrayArgsGo driverName keyValues [] [] []

/-- The value conversion `PrepareArrayArgs` applies for the
`oracle`/`sqlserver` drivers: booleans become 1 or 0, all else unchanged. -/
def boolToDbInt : GoValue → GoValue
  | GoValue.vBool b => GoValue.vInt (if b then 1 else 0)
  | v => v

/-- The per-entry value update performed by `PrepareArrayArgs`' loop body
(identical to the `newValue` computation inside `prepareArrayArgsGo`). -/
def convertValue (driverName : String) (v : GoValue) : GoValue :=
  match v with
  | GoValue.vBool b =>
    if driverName = "oracle" ∨ driverName = "sqlserver" then
      GoValue.vInt (if b then 1 else 0)
    else
      GoValue.vBool b
  | _ => v

end Utils

namespace App

/-- A Go `error` message (`nil` is modelled by `Option.none` around it). -/
abbrev Err := String

/-- Observable events of a run: every subsystem-manager entry-point call
made by `start`/`Stop`, the hook invocations, the call of `execute` by
`Run`, and the block on the supervised group's `Wait`. -/
inductive Ev where
  | configLoad
  | redisLoad
  | storageLoad
  | redisConnect
  | storageConnect
  | tablesConnect
  | apiStart
  | tasksStart
  | tasksStop
  | apiStop
  | redisDisconnect
  | storageDisconnect
  | hookOnDefine
  | hookOnDefineConfiguration
  | hookOnDefineAPI
  | hookOnExecute
  | hookOnStartStorageReady
  | hookOnStopping
  | executeCall
  | groupWait
deriving DecidableEq, Repr

/-- Whether an event is a call into one of the five subsystem managers
(configuration, redis/cache, storage databases + tables, api, tasks). -/
def Ev.isManagerCall : Ev → Bool
  | .configLoad => true
  | .redisLoad => true
  | .storageLoad => true
  | .redisConnect => true
  | .storageConnect => true
  | .tablesConnect => true
  | .apiStart => true
  | .tasksStart => true
  | .tasksStop => true
  | .apiStop => true
  | .redisDisconnect => true
  | .storageDisconnect => true
  | _ => false

/-- The manager calls of a trace, in order. -/
def managerTrace (tr : List Ev) : List Ev := tr.filter Ev.isManagerCall

/-- Whether an event belongs to `Stop`'s teardown activity. -/
def Ev.isTeardown : Ev → Bool
  | .hookOnStopping => true
  | .tasksStop => true
  | .apiStop => true
  | .redisDisconnect => true
  | .storageDisconnect => true
  | _ => false

/-- Behaviour of the external collaborators during one run: which
configuration sections are present, and the error each manager entry
point would return when called (`none` = success). `taskResults` lists,
in completion order, the results of the tasks registered into the
supervised group. -/
structure Env where
  configLoadErr : Option Err
  hasRedis : Bool
  hasStorage : Bool
  hasAPI : Bool
  hasTasks : Bool
  redisLoadErr : Option Err
  storageLoadErr : Option Err
  redisConnectErr : Option Err
  storageConnectErr : Option Err
  tablesConnectErr : Option Err
  apiStartErr : Option Err
  tasksStartErr : Option Err
  tasksStopErr : Option Err
  apiStopErr : Option Err
  redisDisconnectErr : Option Err
  storageDisconnectErr : Option Err
  taskResults : List (Option Err)
deriving DecidableEq, Repr

/-- The `DXApp` record: identity, the loop and debug flags, the four
presence flags and the six optional hooks. A hook field `none` models a
nil Go function pointer; `some r` a hook that returns `r` when called. -/
structure DXApp where
  nameId : String
  Title : String
  Description : String
  Version : String
  IsLoop : Bool
  IsRedisExist : Bool
  IsStorageExist : Bool
  IsAPIExist : Bool
  IsTaskExist : Bool
  DebugKey : String
  IsDebug : Bool
  OnDefine : Option (Option Err)
  OnDefineConfiguration : Option (Option Err)
  OnDefineAPI : Option (Option Err)
  OnExecute : Option (Option Err)
  OnStartStorageReady : Option (Option Err)
  OnStopping : Option (Option Err)
deriving DecidableEq, Repr

/-- The trace of invoking an optional hook: one event if it is set. -/
def hookEv (h : Option (Option Err)) (e : Ev) : List Ev :=
  match h with
  | some _ => [e]
  | none => []

/-- The error produced by the `if hook != nil { err := hook() ... }`
pattern: `none` when the hook is unset or returns nil. -/
def hookRes (h : Option (Option Err)) : Option Err :=
  match h with
  | some r => r
  | none => none

/-- `DXApp.start` from `app/app.go`: load configuration; look up the
`redis` section and, if present, load the redis manager; look up the
`storage` section and, if present, load the databases manager; look up
the `api` section; connect redis if present; connect databases and
tables and fire `OnStartStorageReady` if storage is present; start the
API manager if present; look up the `tasks` section and start the tasks
manager if present. Fail-fast: the first error ends the sequence.
Returns the app (with its presence flags updated as far as the code
got), the event trace, and the returned error. -/
def DXApp.start (a0 : DXApp) (env : Env) : DXApp × List Ev × Option Err :=
  let tr := [Ev.configLoad]
  match env.configLoadErr with
  | some e => (a0, tr, some e)
  | none =>
  let a1 := { a0 with IsRedisExist := env.hasRedis }
  let tr := tr ++ (if a1.IsRedisExist then [Ev.redisLoad] else [])
  match (if a1.IsRedisExist then env.redisLoadErr else none) with
  | some e => (a1, tr, some e)
  | none =>
  let a2 := { a1 with IsStorageExist := env.hasStorage }
  let tr := tr ++ (if a2.IsStorageExist then [Ev.storageLoad] else [])
  match (if a2.IsStorageExist then env.storageLoadErr else none) with
  | some e => (a2, tr, some e)
  | none =>
  let a3 := { a2 with IsAPIExist := env.hasAPI }
  let tr := tr ++ (if a3.IsRedisExist then [Ev.redisConnect] else [])
  match (if a3.IsRedisExist then env.redisConnectErr else none) with
  | some e => (a3, tr, some e)
  | none =>
  let tr := tr ++ (if a3.IsStorageExist then [Ev.storageConnect] else [])
  match (if a3.IsStorageExist then env.storageConnectErr else none) with
  | some e => (a3, tr, some e)
  | none =>
  let tr := tr ++ (if a3.IsStorageExist then [Ev.tablesConnect] else [])
  match (if a3.IsStorageExist then env.tablesConnectErr else none) with
  | some e => (a3, tr, some e)
  | none =>
  let tr := tr ++ (if a3.IsStorageExist then hookEv a3.OnStartStorageReady Ev.hookOnStartStorageReady else [])
  match (if a3.IsStorageExist then hookRes a3.OnStartStorageReady else none) with
  | some e => (a3, tr, some e)
  | none =>
  let tr := tr ++ (if a3.IsAPIExist then [Ev.apiStart] else [])
  match (if a3.IsAPIExist then env.apiStartErr else none) with
  | some e => (a3, tr, some e)
  | none =>
  let a4 := { a3 with IsTaskExist := env.hasTasks }
  let tr := tr ++ (if a4.IsTaskExist then [Ev.tasksStart] else [])
  match (if a4.IsTaskExist then env.tasksStartErr else none) with
  | some e => (a4, tr, some e)
  | none => (a4, tr, none)

/-- `DXApp.Stop` from `app/app.go`: call `OnStopping` if set (its result
discarded); then, each gated by the presence flag and aborting the rest
on error: stop tasks, stop the API, disconnect redis, disconnect
storage. Returns the event trace and the returned error. -/
def DXApp.Stop (a : DXApp) (env : Env) : List Ev × Option Err :=
  let tr := hookEv a.OnStopping Ev.hookOnStopping
  let tr := tr ++ (if a.IsTaskExist then [Ev.tasksStop] else [])
  match (if a.IsTaskExist then env.tasksStopErr else none) with
  | some e => (tr, some e)
  | none =>
  let tr := tr ++ (if a.IsAPIExist then [Ev.apiStop] else [])
  match (if a.IsAPIExist then env.apiStopErr else none) with
  | some e => (tr, some e)
  | none =>
  let tr := tr ++ (if a.IsRedisExist then [Ev.redisDisconnect] else [])
  match (if a.IsRedisExist then env.redisDisconnectErr else none) with
  | some e => (tr, some e)
  | none =>
  let tr := tr ++ (if a.IsStorageExist then [Ev.storageDisconnect] else [])
  match (if a.IsStorageExist then env.storageDisconnectErr else none) with
  | some e => (tr, some e)
  | none => (tr, none)

/-- Modelled from the spec: the Supervised Task Group's `Wait`
(`golang.org/x/sync` errgroup, external to this repository's sources)
returns the first non-nil error raised by any registered task, in task
completion order, or nil once all complete. -/
def groupWaitResult (taskResults : List (Option Err)) : Option Err :=
  match taskResults with
  | [] => none
  | some e :: _ => some e
  | none :: rest => groupWaitResult rest

/-- Modelled from the spec: the group's shared context is cancelled as
soon as any registered task fails. -/
def groupContextCancelled (taskResults : List (Option Err)) : Bool :=
  taskResults.any (fun r => r.isSome)

/-- `DXApp.execute` from `app/app.go`: create the supervised group, run
`start` (on error, return it at once — the `defer` of `Stop` has not
been registered yet); once `start` succeeded, if `IsLoop` the deferred
`Stop` is armed (its error only logged); invoke `OnExecute` if set,
returning its error; if `IsLoop`, block on the group's `Wait` and return
its result. The armed deferred `Stop` runs on every return path after
`start` succeeded. -/
def DXApp.execute (a : DXApp) (env : Env) : DXApp × List Ev × Option Err :=
  let s := a.start env
  let a1 := s.1
  match s.2.2 with
  | some e => (a1, s.2.1, some e)
  | none =>
  let tr := s.2.1 ++ hookEv a1.OnExecute Ev.hookOnExecute
  match hookRes a1.OnExecute with
  | some e =>
    if a1.IsLoop then
      (a1, tr ++ (a1.Stop env).1, some e)
    else
      (a1, tr, some e)
  | none =>
  if a1.IsLoop then
    (a1, tr ++ [Ev.groupWait] ++ (a1.Stop env).1, groupWaitResult env.taskResults)
  else
    (a1, tr, none)

/-- `DXApp.Run` from `app/app.go`: invoke `OnDefine`,
`OnDefineConfiguration` and `OnDefineAPI` in order, each only if set,
returning the first error at once; then call `execute` and return its
result. -/
def DXApp.Run (a : DXApp) (env : Env) : DXApp × List Ev × Option Err :=
  let tr := hookEv a.OnDefine Ev.hookOnDefine
  match hookRes a.OnDefine with
  | some e => (a, tr, some e)
  | none =>
  let tr := tr ++ hookEv a.OnDefineConfiguration Ev.hookOnDefineConfiguration
  match hookRes a.OnDefineConfiguration with
  | some e => (a, tr, some e)
  | none =>
  let tr := tr ++ hookEv a.OnDefineAPI Ev.hookOnDefineAPI
  match hookRes a.OnDefineAPI with
  | some e => (a, tr, some e)
  | none =>
  let r := a.execute env
  (r.1, tr ++ [Ev.executeCall] ++ r.2.1, r.2.2)

/-- The package-level mutable state touched by `Set`: the `v3.AppNameId`
variable and the singleton `App`. (The logging name, being log-only,
is not modelled.) -/
structure GlobalState where
  v3AppNameId : String
  App : DXApp
deriving Repr

/-- The `init()` value of the singleton `App`: zero values everywhere,
`IsDebug` explicitly false, no hooks set. -/
def initialApp : DXApp :=
  { nameId := "", Title := "", Description := "", Version := "",
    IsLoop := false, IsRedisExist := false, IsStorageExist := false,
    IsAPIExist := false, IsTaskExist := false, DebugKey := "",
    IsDebug := false, OnDefine := none, OnDefineConfiguration := none,
    OnDefineAPI := none, OnExecute := none, OnStartStorageReady := none,
    OnStopping := none }

/-- The global state established by `init()`. -/
def initialGlobal : GlobalState := { v3AppNameId := "", App := initialApp }

/-- `app.Set`: store the identity into `v3.AppNameId` and the singleton,
and derive `IsDebug` by comparing the `DEBUG_KEY` environment variable
(`osDebugKey`) with the supplied debug key. -/
def Set (g : GlobalState) (osDebugKey : String) (nameId title description : String)
    (isLoop : Bool) (debugKey : String) : GlobalState :=
  { v3AppNameId := nameId,
    App := { g.App with
              nameId := nameId, Title := title, Description := description,
              IsLoop := isLoop, DebugKey := debugKey,
              IsDebug := osDebugKey = debugKey } }

/-- `app.GetNameId`: read the singleton's `nameId`. -/
def GetNameId (g : GlobalState) : String := g.App.nameId

/-- The four subsystems whose start/stop order the spec talks about. -/
inductive Subsys where
  | cache
  | storage
  | api
  | tasks
deriving DecidableEq, Repr

/-- The subsystem a manager call belongs to (`none` for the
configuration manager, hooks and other events). -/
def evSubsys : Ev → Option Subsys
  | Ev.redisLoad => some Subsys.cache
  | Ev.redisConnect => some Subsys.cache
  | Ev.redisDisconnect => some Subsys.cache
  | Ev.storageLoad => some Subsys.storage
  | Ev.storageConnect => some Subsys.storage
  | Ev.tablesConnect => some Subsys.storage
  | Ev.storageDisconnect => some Subsys.storage
  | Ev.apiStart => some Subsys.api
  | Ev.apiStop => some Subsys.api
  | Ev.tasksStart => some Subsys.tasks
  | Ev.tasksStop => some Subsys.tasks
  | _ => none

/-- Keep the first occurrence of each element, in order. -/
def firstOccs : List Subsys → List Subsys
  | [] => []
  | x :: xs => x :: (firstOccs xs).filter (fun y => y ≠ x)

/-- The order in which a trace first touches each subsystem. -/
def subsysOrder (tr : List Ev) : List Subsys := firstOccs (tr.filterMap evSubsys)

/-- Boolean subsequence test (the claims' notion of order-preserving
sub-list). -/
def isSubseqOf : List Ev → List Ev → Bool
  | [], _ => true
  | _ :: _, [] => false
  | a :: as, b :: bs => if a = b then isSubseqOf as bs else isSubseqOf (a :: as) bs

/-- An environment with no recognized configuration sections and every
manager call succeeding. -/
def envEmpty : Env :=
  { configLoadErr := none, hasRedis := false, hasStorage := false, hasAPI := false,
    hasTasks := false, redisLoadErr := none, storageLoadErr := none,
    redisConnectErr := none, storageConnectErr := none, tablesConnectErr := none,
    apiStartErr := none, tasksStartErr := none, tasksStopErr := none,
    apiStopErr := none, redisDisconnectErr := none, storageDisconnectErr := none,
    taskResults := [] }

/-- An environment with all four sections present and every manager call
succeeding. -/
def envAll : Env :=
  { envEmpty with
    hasRedis := true, hasStorage := true, hasAPI := true, hasTasks := true }

/-- The manager stop calls `Stop` performs when every attempted step
succeeds: the presence-flag-gated subsequence of
[tasks, api, cache, storage]. -/
def gatedStopCalls (a : DXApp) : List Ev :=
  (if a.IsTaskExist then [Ev.tasksStop] else []) ++
  (if a.IsAPIExist then [Ev.apiStop] else []) ++
  (if a.IsRedisExist then [Ev.redisDisconnect] else []) ++
  (if a.IsStorageExist then [Ev.storageDisconnect] else [])

/-- All manager entry points of `env` succeed. -/
def Env.noErrors (env : Env) : Prop :=
  env.configLoadErr = none ∧ env.redisLoadErr = none ∧ env.storageLoadErr = none ∧
  env.redisConnectErr = none ∧ env.storageConnectErr = none ∧
  env.tablesConnectErr = none ∧ env.apiStartErr = none ∧ env.tasksStartErr = none ∧
  env.tasksStopErr = none ∧ env.apiStopErr = none ∧
  env.redisDisconnectErr = none ∧ env.storageDisconnectErr = none

end App

/-! ## Theorems about the `utils` package -/

namespace Utils

theorem runeToLower_idem (c : Nat) :
    runeToLower (runeToLower c) = runeToLower c := by
  unfold runeToLower
  repeat' split
  all_goals omega

theorem runeToLower_upper_lower (c : Nat) (hc : c < 128) :
    runeToLower (runeToUpper (runeToLower c)) = runeToLower c := by
  unfold runeToLower runeToUpper
  repeat' split
  all_goals omega

theorem runeToLower_ne_quote (c : Nat) (h : c ≠ quoteRune) :
    runeToLower c ≠ quoteRune := by
  have h' : c ≠ 34 := h
  clear h
  show runeToLower c ≠ 34
  unfold runeToLower
  split <;> omega

theorem runeToUpper_ne_quote (c : Nat) (h : c ≠ quoteRune) :
    runeToUpper c ≠ quoteRune := by
  have h' : c ≠ 34 := h
  clear h
  show runeToUpper c ≠ 34
  unfold runeToUpper
  repeat' split
  all_goals omega

theorem goToLower_idem (l : List Nat) :
    goToLower (goToLower l) = goToLower l := by
  induction l with
  | nil => rfl
  | cons a as ih =>
    simp only [goToLower, List.map_cons] at *
    rw [runeToLower_idem a, ih]

theorem goToLower_upper_lower (l : List Nat) (h : ∀ c ∈ l, c < 128) :
    goToLower (goToUpper (goToLower l)) = goToLower l := by
  induction l with
  | nil => rfl
  | cons a as ih =>
    have ha : a < 128 := h a (List.mem_cons_self a as)
    have hta : ∀ c ∈ as, c < 128 := fun c hc => h c (List.mem_cons_of_mem a hc)
    have ih' := ih hta
    simp only [goToLower, goToUpper, List.map_cons] at ih' ⊢
    rw [runeToLower_upper_lower a ha, ih']

theorem goToLower_no_quote (l : List Nat) (h : ∀ c ∈ l, c ≠ quoteRune) :
    ∀ c ∈ goToLower l, c ≠ quoteRune := by
  intro c hc
  obtain ⟨c0, hc0, rfl⟩ := List.mem_map.mp hc
  exact runeToLower_ne_quote c0 (h c0 hc0)

theorem goToUpper_no_quote (l : List Nat) (h : ∀ c ∈ l, c ≠ quoteRune) :
    ∀ c ∈ goToUpper l, c ≠ quoteRune := by
  intro c hc
  obtain ⟨c0, hc0, rfl⟩ := List.mem_map.mp hc
  exact runeToUpper_ne_quote c0 (h c0 hc0)

theorem dropWhile_quote_eq_self (l : List Nat) (h : ∀ c ∈ l, c ≠ quoteRune) :
    l.dropWhile (· == quoteRune) = l := by
  cases l with
  | nil => rfl
  | cons a as =>
    have ha : a ≠ quoteRune := h a (List.mem_cons_self a as)
    simp [List.dropWhile_cons, ha]

theorem goTrimQuotes_eq_self (l : List Nat) (h : ∀ c ∈ l, c ≠ quoteRune) :
    goTrimQuotes l = l := by
  unfold goTrimQuotes
  rw [dropWhile_quote_eq_self l h]
  rw [dropWhile_quote_eq_self l.reverse (by intro c hc; exact h c (List.mem_reverse.mp hc))]
  exact List.reverse_reverse l

theorem goTrimQuotes_wrapped (l : List Nat) (h : ∀ c ∈ l, c ≠ quoteRune) :
    goTrimQuotes (quoteRune :: l ++ [quoteRune]) = l := by
  cases l with
  | nil => rfl
  | cons a as =>
    have ha : a ≠ quoteRune := h a (List.mem_cons_self a as)
    have hrev : List.dropWhile (fun x => x == quoteRune) (as.reverse ++ [a]) =
        as.reverse ++ [a] := by
      have hmem : ∀ c ∈ as.reverse ++ [a], c ≠ quoteRune := by
        intro c hc
        have : c ∈ (a :: as).reverse := by
          simpa [List.reverse_cons] using hc
        exact h c (List.mem_reverse.mp this)
      exact dropWhile_quote_eq_self _ hmem
    unfold goTrimQuotes
    rw [List.cons_append, List.dropWhile_cons]
    simp only [beq_self_eq_true, if_true]
    rw [show (a :: as) ++ [quoteRune] = a :: (as ++ [quoteRune]) from rfl]
    rw [List.dropWhile_cons]
    simp only [beq_iff_eq, ha, if_false]
    rw [show a :: (as ++ [quoteRune]) = (a :: as) ++ [quoteRune] from rfl]
    rw [List.reverse_append]
    simp only [List.reverse_cons, List.reverse_nil, List.nil_append, List.singleton_append]
    rw [List.dropWhile_cons]
    simp only [beq_self_eq_true, if_true]
    rw [hrev, List.reverse_append]
    simp

end Utils

namespace Utils

/-- C9 counterexample: for the identifier consisting of the single rune
U+0131 (dotless i, 305) with the oracle driver — a quote-free
identifier — the roundtrip returns "i" (105), not the lowercase form of
the identifier, which is U+0131 itself: Go's ToUpper maps dotless i to
I, whose lowercase is the ordinary i. -/
theorem formatIdentifier_roundtrip_unicode_cex :
    DeformatIdentifier (FormatIdentifier [305] "oracle") "oracle" = [105] ∧
    goToLower [305] = [305] ∧
    (305 : Nat) ≠ quoteRune ∧
    DeformatIdentifier (FormatIdentifier [305] "oracle") "oracle" ≠
      goToLower [305] := by
  decide

/-- C9 (amended): For every identifier consisting of ASCII runes and
containing no double-quote rune, and every driver name,
`DeformatIdentifier (FormatIdentifier id driver) driver` equals the
lowercase form of `id` (outside ASCII the roundtrip can fail, e.g. at
U+0131 with the oracle/db2 drivers); moreover `DeformatIdentifier`
returns the same result for every driver name (its `driverName`
argument is ignored). -/
theorem formatIdentifier_deformat_roundtrip
    (identifier s : List Nat) (d1 d2 : String)
    (h : ∀ c ∈ identifier, c < 128 ∧ c ≠ quoteRune) :
    DeformatIdentifier (FormatIdentifier identifier d1) d1 = goToLower identifier ∧
    DeformatIdentifier s d1 = DeformatIdentifier s d2 := by
  have hq : ∀ c ∈ identifier, c ≠ quoteRune := fun c hc => (h c hc).2
  have hascii : ∀ c ∈ identifier, c < 128 := fun c hc => (h c hc).1
  refine ⟨?_, rfl⟩
  simp only [FormatIdentifier, DeformatIdentifier]
  by_cases hd : d1 = "oracle" ∨ d1 = "db2"
  · simp only [hd, if_true]
    rw [goTrimQuotes_eq_self _ (goToUpper_no_quote _ (goToLower_no_quote _ hq))]
    exact goToLower_upper_lower identifier hascii
  · simp only [hd, if_false]
    rw [goTrimQuotes_wrapped _ (goToLower_no_quote _ hq)]
    exact goToLower_idem identifier

/-- Witness for C9: the identifier "Ab1" round-trips for the oracle and
postgres drivers. -/
theorem formatIdentifier_deformat_roundtrip_witness :
    DeformatIdentifier (FormatIdentifier [65, 98, 49] "oracle") "oracle" =
      goToLower [65, 98, 49] ∧
    DeformatIdentifier (FormatIdentifier [65, 98, 49] "postgres") "postgres" =
      goToLower [65, 98, 49] :=
  ⟨(formatIdentifier_deformat_roundtrip [65, 98, 49] [] "oracle" "oracle"
      (by decide)).1,
   (formatIdentifier_deformat_roundtrip [65, 98, 49] [] "postgres" "postgres"
      (by decide)).1⟩

theorem prepLoop_map (d : String) (kvs : List (List Nat × GoValue))
    (fn fv : List Nat) (fa : List NamedArg) :
    (prepareArrayArgsGo d kvs fn fv fa).2.2.2 =
      kvs.map (fun kv => (kv.1, convertValue d kv.2)) := by
  induction kvs generalizing fn fv fa with
  | nil => rfl
  | cons kv rest ih =>
    obtain ⟨k, v⟩ := kv
    cases v <;> simp [prepareArrayArgsGo, convertValue, ih]

theorem convertValue_oracle (d : String) (hd : d = "oracle" ∨ d = "sqlserver")
    (v : GoValue) : convertValue d v = boolToDbInt v := by
  cases v <;> simp [convertValue, boolToDbInt, hd]

theorem convertValue_other (d : String) (h1 : d ≠ "oracle") (h2 : d ≠ "sqlserver")
    (v : GoValue) : convertValue d v = v := by
  cases v <;> simp [convertValue, h1, h2]

/-- C10: `PrepareArrayArgs` updates the caller's map: for the
`oracle`/`sqlserver` drivers every boolean value is replaced by the
integer 1 (true) or 0 (false); for every other driver, and for every
non-boolean value, the map's entries are unchanged. -/
theorem prepareArrayArgs_mutates_bools (kvs : List (List Nat × GoValue)) (d : String) :
    ((d = "oracle" ∨ d = "sqlserver") →
      (PrepareArrayArgs kvs d).2.2.2 = kvs.map (fun kv => (kv.1, boolToDbInt kv.2))) ∧
    (d ≠ "oracle" → d ≠ "sqlserver" → (PrepareArrayArgs kvs d).2.2.2 = kvs) := by
  constructor
  · intro hd
    unfold PrepareArrayArgs
    rw [prepLoop_map]
    have hf : (fun kv : List Nat × GoValue => (kv.1, convertValue d kv.2)) =
        fun kv => (kv.1, boolToDbInt kv.2) :=
      funext fun kv => by rw [convertValue_oracle d hd]
    rw [hf]
  · intro h1 h2
    unfold PrepareArrayArgs
    rw [prepLoop_map]
    have hf : (fun kv : List Nat × GoValue => (kv.1, convertValue d kv.2)) =
        fun kv => kv :=
      funext fun kv => by rw [convertValue_other d h1 h2]
    rw [hf]
    exact List.map_id kvs

/-- Witness for C10 at the single-entry map with a true boolean, for the
oracle and postgres drivers. -/
theorem prepareArrayArgs_mutates_bools_witness :
    (PrepareArrayArgs [([107], GoValue.vBool true)] "oracle").2.2.2 =
      [([107], GoValue.vInt 1)] ∧
    (PrepareArrayArgs [([107], GoValue.vBool true)] "postgres").2.2.2 =
      [([107], GoValue.vBool true)] := by
  constructor
  · exact ((prepareArrayArgs_mutates_bools [([107], GoValue.vBool true)] "oracle").1
      (Or.inl rfl)).trans (by decide)
  · exact (prepareArrayArgs_mutates_bools [([107], GoValue.vBool true)] "postgres").2
      (by decide) (by decide)

end Utils

/-! ## Theorems about the lifecycle orchestrator -/

namespace App

/-- C8: after `Set`, `GetNameId` returns the nameId just set; in
particular `Set("svc1","Title","Desc",true,"k")` followed by
`GetNameId()` returns "svc1". -/
theorem set_getNameId (g : GlobalState) (osDebugKey nameId title description : String)
    (isLoop : Bool) (debugKey : String) :
    GetNameId (Set g osDebugKey nameId title description isLoop debugKey) = nameId ∧
    GetNameId (Set initialGlobal "" "svc1" "Title" "Desc" true "k") = "svc1" :=
  ⟨rfl, rfl⟩

/-- C5: any define-phase hook error makes `Run` log nothing further and
return that exact error, with the trace showing that no later
define-phase hook and no `execute` call happened. -/
theorem hookRes_some (r : Option Err) : hookRes (some r) = r := rfl

theorem hookEv_some (r : Option Err) (e : Ev) : hookEv (some r) e = [e] := rfl

theorem run_define_fail_fast (a : DXApp) (env : Env) (e : Err) :
    (a.OnDefine = some (some e) →
      a.Run env = (a, [Ev.hookOnDefine], some e)) ∧
    (hookRes a.OnDefine = none → a.OnDefineConfiguration = some (some e) →
      a.Run env = (a, hookEv a.OnDefine Ev.hookOnDefine ++
        [Ev.hookOnDefineConfiguration], some e)) ∧
    (hookRes a.OnDefine = none → hookRes a.OnDefineConfiguration = none →
      a.OnDefineAPI = some (some e) →
      a.Run env = (a, hookEv a.OnDefine Ev.hookOnDefine ++
        hookEv a.OnDefineConfiguration Ev.hookOnDefineConfiguration ++
        [Ev.hookOnDefineAPI], some e)) := by
  refine ⟨?_, ?_, ?_⟩
  · intro h
    simp [DXApp.Run, h, hookRes, hookEv]
  · intro h1 h2
    simp [DXApp.Run, h1, h2, hookRes_some, hookEv_some]
  · intro h1 h2 h3
    simp [DXApp.Run, h1, h2, h3, hookRes_some, hookEv_some]

/-- Witness for C5: a `Run` whose `OnDefine` fails with "boom" while the
two later define hooks are set returns "boom" after the single event
`hookOnDefine`. -/
theorem run_define_fail_fast_witness :
    DXApp.Run
      { initialApp with
        OnDefine := some (some "boom"), OnDefineConfiguration := some none,
        OnDefineAPI := some none } envAll =
    ({ initialApp with
       OnDefine := some (some "boom"), OnDefineConfiguration := some none,
       OnDefineAPI := some none },
      [Ev.hookOnDefine], some "boom") :=
  (run_define_fail_fast _ envAll "boom").1 rfl

theorem hookEv_filter_not (h : Option (Option Err)) (ev : Ev) (p : Ev → Bool)
    (hp : p ev = false) : (hookEv h ev).filter p = [] := by
  cases h <;> simp [hookEv, hp]

theorem start_trace_no_teardown (a : DXApp) (env : Env) :
    (a.start env).2.1.filter Ev.isTeardown = [] := by
  simp only [DXApp.start]
  repeat' split
  all_goals
    simp [List.filter_append, apply_ite (List.filter Ev.isTeardown),
      hookEv_filter_not, Ev.isTeardown]

end App

namespace App

/-- C1 counterexample: with `IsLoop` true and `OnStopping` set, a
configuration-load failure makes `execute` return the error with no
teardown event at all: `Stop` is not invoked even though `isLoop` is
true, because the `defer` of `Stop` is registered only after `start`
succeeds. -/
theorem execute_start_error_stop_skipped_cex :
    (({ initialApp with IsLoop := true, OnStopping := some none } : DXApp).IsLoop = true) ∧
    (DXApp.execute { initialApp with IsLoop := true, OnStopping := some none }
        { envAll with configLoadErr := some "boom" }).2.2 = some "boom" ∧
    List.filter Ev.isTeardown
      (DXApp.execute { initialApp with IsLoop := true, OnStopping := some none }
        { envAll with configLoadErr := some "boom" }).2.1 = [] := by
  decide

/-- C1 (amended): if `start` returns an error inside `execute`, then
regardless of `isLoop` the error is returned immediately and `Stop` is
not invoked: `execute` returns exactly `start`'s app, trace and error,
and its trace contains no teardown event. -/
theorem execute_start_error_no_stop (a : DXApp) (env : Env) (e : Err)
    (h : (a.start env).2.2 = some e) :
    a.execute env = ((a.start env).1, (a.start env).2.1, some e) ∧
    (a.execute env).2.1.filter Ev.isTeardown = [] := by
  have hx : a.execute env = ((a.start env).1, (a.start env).2.1, some e) := by
    simp [DXApp.execute, h]
  refine ⟨hx, ?_⟩
  rw [hx]
  simpa using start_trace_no_teardown a env

/-- Witness for C1 (amended) at a looping app whose configuration load
fails. -/
theorem execute_start_error_no_stop_witness :
    DXApp.execute { initialApp with IsLoop := true, OnStopping := some none }
        { envAll with configLoadErr := some "boom" } =
      ((DXApp.start { initialApp with IsLoop := true, OnStopping := some none }
          { envAll with configLoadErr := some "boom" }).1,
        (DXApp.start { initialApp with IsLoop := true, OnStopping := some none }
          { envAll with configLoadErr := some "boom" }).2.1, some "boom") :=
  (execute_start_error_no_stop
    { initialApp with IsLoop := true, OnStopping := some none }
    { envAll with configLoadErr := some "boom" } "boom" (by decide)).1

/-- C7 counterexample: with no recognized section present, `start` still
performs one manager call — the configuration manager's `Load` — so its
manager-call trace is `[configLoad]`, not empty. -/
theorem start_no_sections_calls_config_cex :
    managerTrace (DXApp.start initialApp envEmpty).2.1 = [Ev.configLoad] ∧
    managerTrace (DXApp.start initialApp envEmpty).2.1 ≠ [] := by
  decide

/-- C7 (amended): for a configuration with none of the four sections and
a successful configuration load, `start` sets all four presence flags to
false and performs no manager call other than the configuration
manager's `Load`. -/
theorem start_no_sections (a : DXApp) (env : Env)
    (hr : env.hasRedis = false) (hs : env.hasStorage = false)
    (ha : env.hasAPI = false) (ht : env.hasTasks = false)
    (hc : env.configLoadErr = none) :
    a.start env =
      ({ a with
         IsRedisExist := false, IsStorageExist := false, IsAPIExist := false,
         IsTaskExist := false }, [Ev.configLoad], none) := by
  simp [DXApp.start, hr, hs, ha, ht, hc]

/-- Witness for C7 (amended) at the empty environment. -/
theorem start_no_sections_witness :
    DXApp.start initialApp envEmpty =
      ({ initialApp with
         IsRedisExist := false, IsStorageExist := false, IsAPIExist := false,
         IsTaskExist := false }, [Ev.configLoad], none) :=
  start_no_sections initialApp envEmpty rfl rfl rfl rfl rfl

/-- C6: in `Stop`, the `OnStopping` hook's result is discarded (not
fatal); each teardown step that fails aborts all later steps and is
returned; and when every attempted step succeeds `Stop` returns nil. -/
theorem stop_fail_fast (a : DXApp) (env : Env) (e : Err) (r1 r2 : Option Err) :
    (DXApp.Stop { a with OnStopping := some r1 } env =
      DXApp.Stop { a with OnStopping := some r2 } env) ∧
    (a.IsTaskExist = true → env.tasksStopErr = some e →
      a.Stop env = (hookEv a.OnStopping Ev.hookOnStopping ++ [Ev.tasksStop], some e)) ∧
    ((if a.IsTaskExist then env.tasksStopErr else none) = none →
      a.IsAPIExist = true → env.apiStopErr = some e →
      a.Stop env = (hookEv a.OnStopping Ev.hookOnStopping ++
        (if a.IsTaskExist then [Ev.tasksStop] else []) ++ [Ev.apiStop], some e)) ∧
    ((if a.IsTaskExist then env.tasksStopErr else none) = none →
      (if a.IsAPIExist then env.apiStopErr else none) = none →
      a.IsRedisExist = true → env.redisDisconnectErr = some e →
      a.Stop env = (hookEv a.OnStopping Ev.hookOnStopping ++
        (if a.IsTaskExist then [Ev.tasksStop] else []) ++
        (if a.IsAPIExist then [Ev.apiStop] else []) ++ [Ev.redisDisconnect], some e)) ∧
    ((if a.IsTaskExist then env.tasksStopErr else none) = none →
      (if a.IsAPIExist then env.apiStopErr else none) = none →
      (if a.IsRedisExist then env.redisDisconnectErr else none) = none →
      a.IsStorageExist = true → env.storageDisconnectErr = some e →
      a.Stop env = (hookEv a.OnStopping Ev.hookOnStopping ++
        (if a.IsTaskExist then [Ev.tasksStop] else []) ++
        (if a.IsAPIExist then [Ev.apiStop] else []) ++
        (if a.IsRedisExist then [Ev.redisDisconnect] else []) ++
        [Ev.storageDisconnect], some e)) ∧
    ((if a.IsTaskExist then env.tasksStopErr else none) = none →
      (if a.IsAPIExist then env.apiStopErr else none) = none →
      (if a.IsRedisExist then env.redisDisconnectErr else none) = none →
      (if a.IsStorageExist then env.storageDisconnectErr else none) = none →
      (a.Stop env).2 = none) := by
  refine ⟨rfl, ?_, ?_, ?_, ?_, ?_⟩
  · intro h1 h2
    simp [DXApp.Stop, h1, h2]
  · intro h1 h2 h3
    simp [DXApp.Stop, h1, h2, h3, List.append_assoc]
  · intro h1 h2 h3 h4
    simp [DXApp.Stop, h1, h2, h3, h4, List.append_assoc]
  · intro h1 h2 h3 h4 h5
    simp [DXApp.Stop, h1, h2, h3, h4, h5, List.append_assoc]
  · intro h1 h2 h3 h4
    simp [DXApp.Stop, h1, h2, h3, h4]

/-- Witness for C6: a task-stop failure aborts teardown right after the
hook and the tasks stop call. -/
theorem stop_fail_fast_witness :
    DXApp.Stop { initialApp with IsTaskExist := true, OnStopping := some none }
        { envAll with tasksStopErr := some "te" } =
      ([Ev.hookOnStopping, Ev.tasksStop], some "te") := by
  have h := (stop_fail_fast
      { initialApp with IsTaskExist := true, OnStopping := some none }
      { envAll with tasksStopErr := some "te" } "te" none none).2.1 rfl rfl
  simpa using h

end App

namespace App

/-- C3 counterexample: with both redis and storage sections present and
everything succeeding, `start`'s manager-call order interleaves the two
subsystems — the storage manager's `LoadFromConfiguration` runs before
redis's `ConnectAllAtStart` — so the order is not a subsequence of the
claimed grouped order [configuration, cache, storage(+tables), api,
tasks], and a storage-manager call is made before the cache endpoints
are connected. -/
theorem start_call_order_cex :
    managerTrace (DXApp.start initialApp envAll).2.1 =
      [Ev.configLoad, Ev.redisLoad, Ev.storageLoad, Ev.redisConnect,
       Ev.storageConnect, Ev.tablesConnect, Ev.apiStart, Ev.tasksStart] ∧
    isSubseqOf (managerTrace (DXApp.start initialApp envAll).2.1)
      [Ev.configLoad, Ev.redisLoad, Ev.redisConnect, Ev.storageLoad,
       Ev.storageConnect, Ev.tablesConnect, Ev.apiStart, Ev.tasksStart] = false := by
  decide

/-- C3 (amended): for every configuration subset and every outcome of
the manager calls, the manager-call order recorded by `start` is a
subsequence of [configuration load, cache load, storage load, cache
connect, storage connect, tables connect, api start, tasks start]: the
two loads happen (cache first) before the two connects (cache first),
with the storage load preceding the cache connect. -/
theorem start_call_order_subseq (a : DXApp) (env : Env) :
    isSubseqOf (managerTrace (a.start env).2.1)
      [Ev.configLoad, Ev.redisLoad, Ev.storageLoad, Ev.redisConnect,
       Ev.storageConnect, Ev.tablesConnect, Ev.apiStart, Ev.tasksStart] = true := by
  simp only [DXApp.start]
  repeat' split
  all_goals
    simp only [managerTrace, List.filter_append, List.filter_cons, List.filter_nil,
      apply_ite (List.filter Ev.isManagerCall), hookEv_filter_not, Ev.isManagerCall]
  all_goals repeat' split
  all_goals decide

end App

namespace App

theorem hookEv_filterMap_none (h : Option (Option Err)) (e : Ev)
    (he : evSubsys e = none) : (hookEv h e).filterMap evSubsys = [] := by
  cases h <;> simp [hookEv, he]

/-- C2 counterexample: with all four sections present and everything
succeeding, `Stop`'s subsystem order is [tasks, api, cache, storage],
but the start order was [cache, storage, api, tasks], whose exact
reverse is [tasks, api, storage, cache] — `Stop` disconnects the cache
before the storage, so the stop order is not the exact reverse of the
start order. -/
theorem stop_order_not_reverse_cex :
    subsysOrder ((DXApp.start initialApp envAll).1.Stop envAll).1 =
      [Subsys.tasks, Subsys.api, Subsys.cache, Subsys.storage] ∧
    subsysOrder (DXApp.start initialApp envAll).2.1 =
      [Subsys.cache, Subsys.storage, Subsys.api, Subsys.tasks] ∧
    subsysOrder ((DXApp.start initialApp envAll).1.Stop envAll).1 ≠
      (subsysOrder (DXApp.start initialApp envAll).2.1).reverse := by
  decide

theorem stop_trace_gated (b : DXApp) (env : Env) :
    managerTrace (b.Stop env).1 =
      (gatedStopCalls b).take (managerTrace (b.Stop env).1).length ∧
    ((b.Stop env).2 = none →
      managerTrace (b.Stop env).1 = gatedStopCalls b) := by
  constructor
  · simp only [DXApp.Stop]
    repeat' split
    all_goals
      simp only [managerTrace, gatedStopCalls, List.filter_append,
        apply_ite (List.filter Ev.isManagerCall), hookEv_filter_not,
        Ev.isManagerCall, List.filter_cons, List.filter_nil]
    all_goals repeat' split
    all_goals simp_all
  · simp only [DXApp.Stop]
    repeat' split
    all_goals intro hnone
    all_goals
      simp_all only [managerTrace, gatedStopCalls, List.filter_append,
        apply_ite (List.filter Ev.isManagerCall), hookEv_filter_not,
        Ev.isManagerCall, List.filter_cons, List.filter_nil]
    all_goals repeat' split
    all_goals simp_all

/-- C2 (amended): for every run — whatever `start` did and wherever
`Stop` fails — the manager stop-call order performed by `Stop` is a
prefix of the presence-flag-gated subsequence of [tasks, api, cache,
storage] (cut at the teardown call that fails); when `Stop` returns nil
it is that whole gated subsequence; and on an error-free run it equals
the exact reverse of the recorded start order precisely when the cache
and storage subsystems were not both present (with both, `Stop`
disconnects cache before storage, while the exact reverse would
disconnect storage first). -/
theorem stop_order_flag_gated (a : DXApp) (env : Env) :
    (managerTrace ((a.start env).1.Stop env).1 =
      (gatedStopCalls (a.start env).1).take
        (managerTrace ((a.start env).1.Stop env).1).length) ∧
    (((a.start env).1.Stop env).2 = none →
      managerTrace ((a.start env).1.Stop env).1 =
        gatedStopCalls (a.start env).1) ∧
    (env.noErrors → hookRes a.OnStartStorageReady = none →
      (subsysOrder ((a.start env).1.Stop env).1 =
          (subsysOrder (a.start env).2.1).reverse ↔
        ¬(env.hasRedis = true ∧ env.hasStorage = true))) := by
  refine ⟨(stop_trace_gated _ env).1, (stop_trace_gated _ env).2, ?_⟩
  intro h hh
  obtain ⟨h1, h2, h3, h4, h5, h6, h7, h8, h9, h10, h11, h12⟩ := h
  cases hhr : env.hasRedis <;> cases hhs : env.hasStorage <;>
    cases hha : env.hasAPI <;> cases hht : env.hasTasks <;>
      simp [DXApp.start, DXApp.Stop, subsysOrder, firstOccs, evSubsys,
        List.filterMap_append, hookEv_filterMap_none, hh, hhr, hhs, hha, hht,
        h1, h2, h3, h4, h5, h6, h7, h8, h9, h10, h11, h12]

/-- Witness for C2 (amended) at a run with only the redis and tasks
sections: `Stop` returns nil, its manager-call order is the whole gated
subsequence, and it is the exact reverse of the start order. -/
theorem stop_order_flag_gated_witness :
    managerTrace ((DXApp.start initialApp
        { envEmpty with hasRedis := true, hasTasks := true }).1.Stop
        { envEmpty with hasRedis := true, hasTasks := true }).1 =
      gatedStopCalls (DXApp.start initialApp
        { envEmpty with hasRedis := true, hasTasks := true }).1 ∧
    subsysOrder ((DXApp.start initialApp
        { envEmpty with hasRedis := true, hasTasks := true }).1.Stop
        { envEmpty with hasRedis := true, hasTasks := true }).1 =
      (subsysOrder (DXApp.start initialApp
        { envEmpty with hasRedis := true, hasTasks := true }).2.1).reverse := by
  have h := stop_order_flag_gated initialApp
      { envEmpty with hasRedis := true, hasTasks := true }
  refine ⟨h.2.1 (by decide), ?_⟩
  exact (h.2.2 ⟨rfl, rfl, rfl, rfl, rfl, rfl, rfl, rfl, rfl, rfl, rfl, rfl⟩
    rfl).mpr (by decide)

theorem start_pres_IsLoop (a : DXApp) (env : Env) :
    (a.start env).1.IsLoop = a.IsLoop := by
  simp only [DXApp.start]
  repeat' split
  all_goals rfl

theorem start_pres_OnExecute (a : DXApp) (env : Env) :
    (a.start env).1.OnExecute = a.OnExecute := by
  simp only [DXApp.start]
  repeat' split
  all_goals rfl

theorem groupWaitResult_first_err (pre : List (Option Err)) (e : Err)
    (post : List (Option Err)) (hpre : ∀ x ∈ pre, x = none) :
    groupWaitResult (pre ++ some e :: post) = some e := by
  induction pre with
  | nil => simp [groupWaitResult]
  | cons x xs ih =>
    have hx : x = none := hpre x (List.mem_cons_self x xs)
    subst hx
    simp only [List.cons_append, groupWaitResult]
    exact ih (fun y hy => hpre y (List.mem_cons_of_mem none hy))

theorem groupWaitResult_all_none (l : List (Option Err))
    (h : ∀ x ∈ l, x = none) : groupWaitResult l = none := by
  induction l with
  | nil => rfl
  | cons x xs ih =>
    have hx : x = none := h x (List.mem_cons_self x xs)
    subst hx
    simp only [groupWaitResult]
    exact ih (fun y hy => h y (List.mem_cons_of_mem none hy))

theorem groupWaitResult_cancel (l : List (Option Err)) (e : Err)
    (h : groupWaitResult l = some e) : groupContextCancelled l = true := by
  induction l with
  | nil => simp [groupWaitResult] at h
  | cons x xs ih =>
    cases x with
    | some e2 => simp [groupContextCancelled]
    | none =>
      simp only [groupWaitResult] at h
      simp only [groupContextCancelled, List.any_cons, Option.isSome_none,
        Bool.false_or] at ih ⊢
      exact ih h

/-- C4: with `isLoop` true and both `start` and `OnExecute` succeeding,
`execute` blocks on the supervised group's `Wait` and returns its
result, with the deferred `Stop` appended to the trace; `Wait` returns
the first non-nil task result in completion order (nil when all tasks
complete without error), and the shared context is cancelled whenever
some task failed. -/
theorem execute_loop_wait (a : DXApp) (env : Env)
    (hl : a.IsLoop = true)
    (hs : (a.start env).2.2 = none)
    (he : hookRes a.OnExecute = none) :
    a.execute env = ((a.start env).1,
      (a.start env).2.1 ++ hookEv a.OnExecute Ev.hookOnExecute ++ [Ev.groupWait] ++
        ((a.start env).1.Stop env).1,
      groupWaitResult env.taskResults) ∧
    (∀ pre e post, env.taskResults = pre ++ some e :: post →
      (∀ x ∈ pre, x = none) → groupWaitResult env.taskResults = some e) ∧
    ((∀ x ∈ env.taskResults, x = none) → groupWaitResult env.taskResults = none) ∧
    (∀ e, groupWaitResult env.taskResults = some e →
      groupContextCancelled env.taskResults = true) := by
  refine ⟨?_, ?_, ?_, ?_⟩
  · have hpL := start_pres_IsLoop a env
    have hpE := start_pres_OnExecute a env
    simp [DXApp.execute, hs, hpL, hpE, hl, he, List.append_assoc]
  · intro pre e post hsplit hpre
    rw [hsplit]
    exact groupWaitResult_first_err pre e post hpre
  · exact groupWaitResult_all_none env.taskResults
  · intro e
    exact groupWaitResult_cancel env.taskResults e

/-- Witness for C4: a looping app whose second task fails with "tfail"
gets "tfail" from `execute`, and the group context is cancelled. -/
theorem execute_loop_wait_witness :
    (DXApp.execute { initialApp with IsLoop := true, OnStopping := some none }
        { envAll with taskResults := [none, some "tfail"] }).2.2 = some "tfail" ∧
    groupContextCancelled [none, some "tfail"] = true := by
  have h := execute_loop_wait
      { initialApp with IsLoop := true, OnStopping := some none }
      { envAll with taskResults := [none, some "tfail"] }
      rfl (by decide) rfl
  refine ⟨?_, ?_⟩
  · rw [h.1]
    decide
  · exact h.2.2.2 "tfail" (by decide)

end App
